import Mathlib

/-! Tag resolution layer of `repo_tag.go`.

A shallow embedding of `Repository.GetTags`, `Repository.GetTag` and
`Repository.getTag`.

* Go pointers `*Tag` are addresses into an explicit heap (`State.heap`), so
  that the sharing between the tag cache and the values handed to callers
  is visible.
* The collaborators that live outside `repo_tag.go` (`readRefDir`,
  `readPackedRefs`, `ioutil.ReadFile`, `NewIdFromString`, `getRawObject`,
  `parseTagData`, `filepath.Join`) are fields of `Env`.
* Every call to a collaborator doing I/O is recorded in `State.trace`, and
  every byte source handed back by `getRawObject` gets a fresh handle, so
  that "is never invoked" and "is closed exactly once" are statements about
  the trace.
-/

namespace Git

/-! ## Data model -/

/-- One byte. -/
abbrev Byte := Fin 256

/-- Modelled from the spec: the identifier type `sha1`, declared outside
`repo_tag.go`; a fixed-length content hash of 20 bytes, compared bytewise
and used as a map key. -/
abbrev sha1 := { b : List Byte // b.length = 20 }

/-- The zero value of `sha1` (twenty zero bytes), as produced by `new(Tag)`. -/
def sha1.zero : sha1 := ⟨List.replicate 20 0, by simp⟩

/-- Go `error` values, identified by their message. -/
abbrev Error := String

/-- Modelled from the spec: the four object kinds, declared outside
`repo_tag.go` (`kind: one of Commit, Tree, Blob, Tag`). -/
inductive ObjectType
  | ObjectCommit
  | ObjectTree
  | ObjectBlob
  | ObjectTag
  deriving DecidableEq, Repr

open ObjectType

/-- Modelled from the spec: the structured tagger line
`tagger <name> <email> <unix-timestamp> <tz-offset>`; the struct is declared
outside `repo_tag.go`. -/
structure Signature where
  Name : String
  Email : String
  When : Int
  Offset : Int
  deriving DecidableEq, Repr

/-- Address of a `Tag` object in the heap (a Go `*Tag`). -/
abbrev Ptr := Nat

/-- The `Tag` struct. The struct is declared outside `repo_tag.go`; its
fields are those the source assigns (`Name`, `Id`, `Object`, `Type`, `repo`;
`Type` is a keyword here and is written `Type_`)
together with the tagger and message of the spec's data model. The back
pointer `repo` is represented by the `Path` of the repository it points to,
`none` being the nil pointer. -/
structure Tag where
  Name : String
  Id : sha1
  repo : Option String
  Object : sha1
  Type_ : String
  Tagger : Option Signature
  Message : String
  deriving DecidableEq

/-- The value `new(Tag)` points to: every field at its zero value. -/
def Tag.new : Tag :=
  { Name := "", Id := sha1.zero, repo := none, Object := sha1.zero, Type_ := "",
    Tagger := none, Message := "" }

/-- A Go `map[sha1]*Tag` that is not nil: an association list in which the
first binding of a key is the live one. -/
abbrev TagMap := List (sha1 × Ptr)

/-- The fields of `Repository` that `repo_tag.go` uses. `tagCache = none` is
the nil map. -/
structure Repository where
  Path : String
  tagCache : Option TagMap
  deriving DecidableEq

/-- The byte source (`io.ReadCloser`) of a fetched object: what
`ioutil.ReadAll` yields when applied to it. -/
structure ReadCloser where
  content : Except Error (List Byte)

/-- The successful result of `getRawObject`: kind, size and byte source. -/
structure RawObject where
  tp : ObjectType
  size : Nat
  dataRc : ReadCloser

/-- The collaborators of `repo_tag.go`, as the environment the operations
run in. `getRawObject id` stands for `repo.getRawObject(id, false)`. -/
structure Env where
  Join : List String → String
  ReadFile : String → Except Error String
  NewIdFromString : String → Except Error sha1
  getRawObject : sha1 → Except Error RawObject
  parseTagData : List Byte → Except Error Tag
  readRefDir : String → String → Except Error (List String)
  readPackedRefs : Except Error (List String)

/-- Observable calls to collaborators. `acquire h` records that the object
store accessor handed back the byte source with handle `h`. -/
inductive Event
  | readRefDir (dir : String) (pfx : String)
  | readPackedRefs
  | ReadFile (path : String)
  | getRawObject (id : sha1)
  | acquire (h : Nat)
  | ReadAll (h : Nat)
  | parseTagData (data : List Byte)
  | Close (h : Nat)
  deriving DecidableEq

/-- Program state: the repository, the heap of `Tag` objects (the address of
an object is its index), the number of byte sources handed out so far, and
the trace of collaborator calls. -/
structure State where
  repo : Repository
  heap : List Tag
  opened : Nat
  trace : List Event
  deriving DecidableEq

/-- Append one event to the trace. -/
def State.log (s : State) (e : Event) : State :=
  { s with trace := s.trace ++ [e] }

/-- Allocate a `Tag` on the heap; the new address is returned. -/
def State.alloc (s : State) (t : Tag) : Ptr × State :=
  (s.heap.length, { s with heap := s.heap ++ [t] })

/-- Go map read `m[id]` with the comma-ok form; a nil map has no entries. -/
def cacheGet (c : Option TagMap) (id : sha1) : Option Ptr :=
  match c with
  | none => none
  | some m => m.lookup id

/-- Go map assignment `m[id] = p`: the binding for `id` is replaced or
added. In `getTag` the map is never nil at this point (a nil map is replaced
by `make` on entry), so the nil case is given the same result as an empty
map. -/
def cachePut (c : Option TagMap) (id : sha1) (p : Ptr) : Option TagMap :=
  match c with
  | none => some [(id, p)]
  | some m => some ((id, p) :: m.filter (fun kv => decide (kv.1 ≠ id)))

/-- The statement `repo.tagCache[id] = tag`. -/
def State.cacheStore (s : State) (id : sha1) (p : Ptr) : State :=
  { s with repo := { s.repo with tagCache := cachePut s.repo.tagCache id p } }

/-- The Tag a pointer refers to. -/
def State.deref (s : State) (p : Ptr) : Option Tag := s.heap[p]?

/-- The Tag the cache maps an Identifier to, if any. -/
def State.cached (s : State) (id : sha1) : Option Tag :=
  (cacheGet s.repo.tagCache id).bind s.deref

/-! ## Operations -/

/-- `Repository.TagPath`. -/
def TagPath (env : Env) (repo : Repository) (tagName : String) : String :=
  env.Join [repo.Path, "refs/tags", tagName]

/-- `Repository.GetTags`: loose refs are read first, then packed refs; the
result is `append(packed, loose...)`. -/
def GetTags (env : Env) (s : State) : Except Error (List String) × State :=
  let s1 := s.log (Event.readRefDir "refs/tags" "")
  match env.readRefDir "refs/tags" "" with
  | .error err => (.error err, s1)
  | .ok loose =>
    let s2 := s1.log Event.readPackedRefs
    match env.readPackedRefs with
    | .error err => (.error err, s2)
    | .ok packed => (.ok (packed ++ loose), s2)

/-- Body of `getTag` after the deferred `Close` has been registered
(source lines 85-117); `h` is the handle of the byte source. -/
def getTagBody (env : Env) (id : sha1) (raw : RawObject) (h : Nat) (s : State) :
    Except Error Ptr × State :=
  if raw.tp = ObjectCommit then
    let tag : Tag :=
      { Tag.new with Id := id, Object := id, Type_ := "commit", repo := some s.repo.Path }
    let (p, s1) := s.alloc tag
    (.ok p, s1.cacheStore id p)
  else if raw.tp ≠ ObjectTag then
    (.error "Expected tag type, read error.", s)
  else
    let s1 := s.log (Event.ReadAll h)
    match raw.dataRc.content with
    | .error err => (.error err, s1)
    | .ok data =>
      let s2 := s1.log (Event.parseTagData data)
      match env.parseTagData data with
      | .error err => (.error err, s2)
      | .ok parsed =>
        let tag : Tag := { parsed with Id := id, repo := some s2.repo.Path }
        let (p, s3) := s2.alloc tag
        (.ok p, s3.cacheStore id p)

/-- The part of `getTag` after the cache lookup (source lines 76-117): the
fetch, the deferred `dataRc.Close()` and the body. -/
def getTagMiss (env : Env) (id : sha1) (s : State) : Except Error Ptr × State :=
  let s1 := s.log (Event.getRawObject id)
  match env.getRawObject id with
  | .error err => (.error err, s1)
  | .ok raw =>
    let h := s1.opened
    let s2 := { s1 with opened := h + 1, trace := s1.trace ++ [Event.acquire h] }
    let (r, s3) := getTagBody env id raw h s2
    (r, s3.log (Event.Close h))

/-- `Repository.getTag`. -/
def getTag (env : Env) (id : sha1) (s : State) : Except Error Ptr × State :=
  match s.repo.tagCache with
  | some m =>
    match m.lookup id with
    | some c => (.ok c, s)
    | none => getTagMiss env id s
  | none => getTagMiss env id { s with repo := { s.repo with tagCache := some [] } }

/-- The assignment `tag.Name = tagName` through the pointer `p`. -/
def State.setName (s : State) (p : Ptr) (tagName : String) : State :=
  { s with heap := s.heap.modify (fun t => { t with Name := tagName }) p }

/-- `Repository.GetTag`. -/
def GetTag (env : Env) (tagName : String) (s : State) : Except Error Ptr × State :=
  let path := TagPath env s.repo tagName
  let s1 := s.log (Event.ReadFile path)
  match env.ReadFile path with
  | .error err => (.error err, s1)
  | .ok d =>
    match env.NewIdFromString d with
    | .error err => (.error err, s1)
    | .ok id =>
      match getTag env id s1 with
      | (.error err, s2) => (.error err, s2)
      | (.ok tag, s2) => (.ok tag, s2.setName tag tagName)

/-! ## Concrete inputs -/

/-- An identifier made of twenty copies of one byte. -/
def idOf (b : Byte) : sha1 := ⟨List.replicate 20 b, by simp⟩

/-- A fresh repository at `/repo`: nil tag cache, empty heap, empty trace. -/
def st0 : State :=
  { repo := { Path := "/repo", tagCache := none }, heap := [], opened := 0, trace := [] }

/-- Packed refs `v1`, `v2` and one loose ref `v2`; nothing else is readable. -/
def envTags : Env :=
  { Join := fun parts => String.intercalate "/" parts
    ReadFile := fun _ => .error "no such file"
    NewIdFromString := fun _ => .error "bad id"
    getRawObject := fun _ => .error "object not found"
    parseTagData := fun _ => .error "bad tag"
    readRefDir := fun _ _ => .ok ["v2"]
    readPackedRefs := .ok ["v1", "v2"] }

/-- Both ref readers fail, with different errors. -/
def envBothFail : Env :=
  { envTags with
    readRefDir := fun _ _ => .error "loose refs unreadable"
    readPackedRefs := .error "packed refs unreadable" }

/-- Every ref file holds the identifier `0101..01`, which addresses a commit. -/
def envCommit : Env :=
  { envTags with
    ReadFile := fun _ => .ok "0101010101010101010101010101010101010101"
    NewIdFromString := fun _ => .ok (idOf 1)
    getRawObject := fun _ =>
      .ok { tp := ObjectCommit, size := 0, dataRc := { content := .ok [] } } }

/-- The Tag the parser of `envAnnotated` yields: it points at object `0202..02`. -/
def parsedTag : Tag :=
  { Tag.new with
    Object := idOf 2, Type_ := "commit", Message := "release",
    Tagger := some { Name := "A", Email := "a@example.org", When := 1, Offset := 0 } }

/-- Every ref file holds the identifier `0101..01`, which addresses a tag
object whose record parses to `parsedTag`. -/
def envAnnotated : Env :=
  { envCommit with
    getRawObject := fun _ =>
      .ok { tp := ObjectTag, size := 3, dataRc := { content := .ok [1, 2, 3] } }
    parseTagData := fun _ => .ok parsedTag }

/-- Every ref file holds the identifier `0101..01`, which addresses a blob. -/
def envBlob : Env :=
  { envCommit with
    getRawObject := fun _ =>
      .ok { tp := ObjectBlob, size := 1, dataRc := { content := .ok [7] } } }

/-- Every ref file holds the identifier `0101..01`, which addresses a tag
object whose record the parser rejects. -/
def envBadRecord : Env :=
  { envAnnotated with parseTagData := fun _ => .error "malformed tag record" }

/-- No ref file is readable, whatever the name. -/
def envNoRef : Env :=
  { envCommit with ReadFile := fun _ => .error "open refs/tags: no such file" }

/-- Well-formed states: every pointer held in the tag cache is the address
of an allocated Tag. -/
def State.WF (s : State) : Prop :=
  ∀ kv ∈ s.repo.tagCache.getD [], kv.2 < s.heap.length

instance (s : State) : Decidable s.WF := by
  unfold State.WF; infer_instance

/-- The state `getTag` continues with after its nil check: a nil tag cache
has been replaced by an empty map. -/
def State.initCache (s : State) : State :=
  { s with repo := { s.repo with tagCache := some (s.repo.tagCache.getD []) } }

/-- The Tag `getTag` synthesizes for a lightweight tag (source lines 87-91). -/
def lightweightTag (s : State) (id : sha1) : Tag :=
  { Tag.new with Id := id, Object := id, Type_ := "commit", repo := some s.repo.Path }

/-- The Tag `getTag` keeps for an annotated tag (source lines 113-114). -/
def annotatedTag (s : State) (id : sha1) (parsed : Tag) : Tag :=
  { parsed with Id := id, repo := some s.repo.Path }

/-- The events of one `getTag` call that fetched a byte source: the fetch,
the hand-over of byte source `s.opened`, the events `mid` of the body, and
the deferred `Close`. -/
def fetchEvents (s : State) (id : sha1) (mid : List Event) : List Event :=
  [Event.getRawObject id, Event.acquire s.opened] ++ mid ++ [Event.Close s.opened]

/-- State after a `getTag` call that fetched a byte source and failed. -/
def State.afterFail (s : State) (id : sha1) (mid : List Event) : State :=
  { s with opened := s.opened + 1, trace := s.trace ++ fetchEvents s id mid }

/-- State after a `getTag` call that fetched a byte source and stored `t`
at the fresh address `s.heap.length`. -/
def State.afterStore (s : State) (id : sha1) (t : Tag) (mid : List Event) : State :=
  { repo := { s.repo with tagCache := cachePut s.repo.tagCache id s.heap.length }
    heap := s.heap ++ [t]
    opened := s.opened + 1
    trace := s.trace ++ fetchEvents s id mid }

/-! ## Auxiliary facts -/

theorem cacheGet_cachePut_self (c : Option TagMap) (id : sha1) (p : Ptr) :
    cacheGet (cachePut c id p) id = some p := by
  cases c <;> simp [cacheGet, cachePut]

theorem mem_cachePut (c : Option TagMap) (id : sha1) (p : Ptr) (kv : sha1 × Ptr)
    (h : kv ∈ (cachePut c id p).getD []) : kv = (id, p) ∨ kv ∈ c.getD [] := by
  cases c with
  | none => simpa [cachePut] using h
  | some m =>
    simp only [cachePut, Option.getD_some, List.mem_cons, List.mem_filter] at h
    rcases h with h | h
    · exact Or.inl h
    · exact Or.inr h.1

theorem mem_of_cacheGet (c : Option TagMap) (id : sha1) (p : Ptr)
    (h : cacheGet c id = some p) : (id, p) ∈ c.getD [] := by
  cases c with
  | none => simp [cacheGet] at h
  | some m =>
    simp only [cacheGet] at h
    obtain ⟨l₁, l₂, rfl, -⟩ := List.lookup_eq_some_iff.1 h
    simp

theorem getTag_of_hit (env : Env) (id : sha1) (s : State) (p : Ptr)
    (h : cacheGet s.repo.tagCache id = some p) : getTag env id s = (.ok p, s) := by
  unfold getTag
  cases hc : s.repo.tagCache with
  | none => simp [hc, cacheGet] at h
  | some m =>
    simp only [hc, cacheGet] at h
    simp [h]

theorem getTag_of_miss (env : Env) (id : sha1) (s : State)
    (h : cacheGet s.repo.tagCache id = none) :
    getTag env id s = getTagMiss env id s.initCache := by
  unfold getTag
  cases hc : s.repo.tagCache with
  | none => simp [State.initCache, hc]
  | some m =>
    simp only [hc, cacheGet] at h
    have : s.initCache = s := by
      cases s with
      | mk repo heap opened trace =>
        cases repo
        simp_all [State.initCache]
    simp [h, this]

theorem getTagMiss_fetch_error (env : Env) (id : sha1) (s : State) (e : Error)
    (hraw : env.getRawObject id = .error e) :
    getTagMiss env id s = (.error e, s.log (Event.getRawObject id)) := by
  simp [getTagMiss, hraw]

theorem getTagMiss_commit (env : Env) (id : sha1) (s : State) (raw : RawObject)
    (hraw : env.getRawObject id = .ok raw) (hkind : raw.tp = ObjectCommit) :
    getTagMiss env id s =
      (.ok s.heap.length, s.afterStore id (lightweightTag s id) []) := by
  simp [getTagMiss, hraw, getTagBody, hkind, State.alloc, State.log, State.cacheStore,
    State.afterStore, fetchEvents, lightweightTag]

theorem getTagMiss_other_kind (env : Env) (id : sha1) (s : State) (raw : RawObject)
    (hraw : env.getRawObject id = .ok raw)
    (hc : raw.tp ≠ ObjectCommit) (ht : raw.tp ≠ ObjectTag) :
    getTagMiss env id s =
      (.error "Expected tag type, read error.", s.afterFail id []) := by
  simp [getTagMiss, hraw, getTagBody, hc, ht, State.log, State.afterFail, fetchEvents]

theorem getTagMiss_read_error (env : Env) (id : sha1) (s : State) (raw : RawObject)
    (e : Error) (hraw : env.getRawObject id = .ok raw) (hkind : raw.tp = ObjectTag)
    (hread : raw.dataRc.content = .error e) :
    getTagMiss env id s = (.error e, s.afterFail id [Event.ReadAll s.opened]) := by
  simp [getTagMiss, hraw, getTagBody, hkind, hread, State.log, State.afterFail, fetchEvents]

theorem getTagMiss_parse_error (env : Env) (id : sha1) (s : State) (raw : RawObject)
    (data : List Byte) (e : Error)
    (hraw : env.getRawObject id = .ok raw) (hkind : raw.tp = ObjectTag)
    (hread : raw.dataRc.content = .ok data) (hparse : env.parseTagData data = .error e) :
    getTagMiss env id s =
      (.error e, s.afterFail id [Event.ReadAll s.opened, Event.parseTagData data]) := by
  simp [getTagMiss, hraw, getTagBody, hkind, hread, hparse, State.log, State.afterFail,
    fetchEvents]

theorem getTagMiss_annotated (env : Env) (id : sha1) (s : State) (raw : RawObject)
    (data : List Byte) (parsed : Tag)
    (hraw : env.getRawObject id = .ok raw) (hkind : raw.tp = ObjectTag)
    (hread : raw.dataRc.content = .ok data) (hparse : env.parseTagData data = .ok parsed) :
    getTagMiss env id s =
      (.ok s.heap.length,
        s.afterStore id (annotatedTag s id parsed)
          [Event.ReadAll s.opened, Event.parseTagData data]) := by
  simp [getTagMiss, hraw, getTagBody, hkind, hread, hparse, State.alloc, State.log,
    State.cacheStore, State.afterStore, fetchEvents, annotatedTag]

/-- Once a byte source has been fetched, the miss path takes one of five
exits: three failures and two stores. -/
theorem getTagMiss_fetched_cases (env : Env) (id : sha1) (s : State) (raw : RawObject)
    (hraw : env.getRawObject id = .ok raw) :
    (∃ e mid, getTagMiss env id s = (.error e, s.afterFail id mid) ∧
        (mid = [] ∨ mid = [Event.ReadAll s.opened] ∨
          ∃ data, mid = [Event.ReadAll s.opened, Event.parseTagData data])) ∨
      (∃ t mid, getTagMiss env id s = (.ok s.heap.length, s.afterStore id t mid) ∧
        (mid = [] ∨ ∃ data, mid = [Event.ReadAll s.opened, Event.parseTagData data])) := by
  by_cases hc : raw.tp = ObjectCommit
  · exact Or.inr ⟨_, [], getTagMiss_commit env id s raw hraw hc, Or.inl rfl⟩
  by_cases ht : raw.tp = ObjectTag
  · cases hread : raw.dataRc.content with
    | error e =>
      exact Or.inl ⟨e, _, getTagMiss_read_error env id s raw e hraw ht hread,
        Or.inr (Or.inl rfl)⟩
    | ok data =>
      cases hparse : env.parseTagData data with
      | error e =>
        exact Or.inl ⟨e, _,
          getTagMiss_parse_error env id s raw data e hraw ht hread hparse,
          Or.inr (Or.inr ⟨data, rfl⟩)⟩
      | ok parsed =>
        exact Or.inr ⟨_, _,
          getTagMiss_annotated env id s raw data parsed hraw ht hread hparse,
          Or.inr ⟨data, rfl⟩⟩
  · exact Or.inl ⟨_, [], getTagMiss_other_kind env id s raw hraw hc ht, Or.inl rfl⟩

/-- Every run of the miss path either fails at the fetch, or fails after
it, or stores a Tag at a fresh address. -/
theorem getTagMiss_cases (env : Env) (id : sha1) (s : State) :
    (∃ e, getTagMiss env id s = (.error e, s.log (Event.getRawObject id))) ∨
      (∃ e mid, getTagMiss env id s = (.error e, s.afterFail id mid)) ∨
      (∃ t mid, getTagMiss env id s = (.ok s.heap.length, s.afterStore id t mid)) := by
  cases hraw : env.getRawObject id with
  | error e => exact Or.inl ⟨e, getTagMiss_fetch_error env id s e hraw⟩
  | ok raw =>
    rcases getTagMiss_fetched_cases env id s raw hraw with ⟨e, mid, h, -⟩ | ⟨t, mid, h, -⟩
    · exact Or.inr (Or.inl ⟨e, mid, h⟩)
    · exact Or.inr (Or.inr ⟨t, mid, h⟩)

theorem cacheGet_initCache (s : State) (k : sha1) :
    cacheGet s.initCache.repo.tagCache k = cacheGet s.repo.tagCache k := by
  cases hc : s.repo.tagCache <;> simp [State.initCache, cacheGet, hc]

/-- What a successful `getTag` leaves behind: the cache maps the Identifier
to the returned pointer, the repository path is unchanged, and from a
well-formed state the result is well formed and the pointer is allocated. -/
theorem getTag_ok (env : Env) (id : sha1) (s s' : State) (p : Ptr)
    (h : getTag env id s = (.ok p, s')) :
    cacheGet s'.repo.tagCache id = some p ∧ s'.repo.Path = s.repo.Path ∧
      (s.WF → s'.WF ∧ p < s'.heap.length) := by
  cases hget : cacheGet s.repo.tagCache id with
  | some q =>
    rw [getTag_of_hit env id s q hget] at h
    injection h with h1 h2
    injection h1 with h1
    subst h1 h2
    refine ⟨hget, rfl, fun hwf => ⟨hwf, ?_⟩⟩
    exact hwf (id, q) (mem_of_cacheGet _ _ _ hget)
  | none =>
    rw [getTag_of_miss env id s hget] at h
    rcases getTagMiss_cases env id s.initCache with ⟨e, h'⟩ | ⟨e, mid, h'⟩ | ⟨t, mid, h'⟩
    · rw [h'] at h; cases h
    · rw [h'] at h; cases h
    · rw [h'] at h
      injection h with h1 h2
      injection h1 with h1
      subst h1 h2
      refine ⟨by simp [State.afterStore, cacheGet_cachePut_self], rfl, fun hwf => ⟨?_, ?_⟩⟩
      · intro kv hkv
        have hkv' := mem_cachePut s.initCache.repo.tagCache id s.initCache.heap.length kv hkv
        rcases hkv' with rfl | hkv'
        · simp [State.afterStore]
        · have := hwf kv (by simpa [State.initCache] using hkv')
          simp only [State.afterStore, List.length_append, List.length_singleton]
          exact Nat.lt_succ_of_lt this
      · simp [State.afterStore]

theorem GetTag_of_ok (env : Env) (n : String) (s s' : State) (d : String) (i : sha1)
    (p : Ptr) (hd : env.ReadFile (TagPath env s.repo n) = .ok d)
    (hi : env.NewIdFromString d = .ok i)
    (hg : getTag env i (s.log (Event.ReadFile (TagPath env s.repo n))) = (.ok p, s')) :
    GetTag env n s = (.ok p, s'.setName p n) := by
  simp [GetTag, hd, hi, hg]

theorem GetTag_ok_inv (env : Env) (n : String) (s s1 : State) (p : Ptr)
    (h : GetTag env n s = (.ok p, s1)) :
    ∃ d i s', env.ReadFile (TagPath env s.repo n) = .ok d ∧
      env.NewIdFromString d = .ok i ∧
      getTag env i (s.log (Event.ReadFile (TagPath env s.repo n))) = (.ok p, s') ∧
      s1 = s'.setName p n := by
  cases hd : env.ReadFile (TagPath env s.repo n) with
  | error e => simp [GetTag, hd] at h
  | ok d =>
    cases hi : env.NewIdFromString d with
    | error e => simp [GetTag, hd, hi] at h
    | ok i =>
      rcases hg : getTag env i (s.log (Event.ReadFile (TagPath env s.repo n))) with ⟨r, s'⟩
      cases r with
      | error e => simp [GetTag, hd, hi, hg] at h
      | ok q =>
        rw [GetTag_of_ok env n s s' d i q hd hi hg] at h
        injection h with h1 h2
        injection h1 with h1
        subst h1
        exact ⟨d, i, s', rfl, hi, hg, h2.symm⟩

theorem deref_setName (s : State) (p : Ptr) (n : String) :
    (s.setName p n).deref p = (s.deref p).map (fun t => { t with Name := n }) := by
  simp [State.setName, State.deref]

/-! ## Tag enumeration -/

/-- C1: when both ref readers succeed, the packed one with `P` and the loose
one (namespace `refs/tags`) with `L`, `GetTags` returns `P ++ L` and no
error: packed names first, then loose names, nothing removed, deduplicated
or reordered, so the length is `|P| + |L|`. -/
theorem GetTags_packed_then_loose (env : Env) (s : State) (P L : List String)
    (hP : env.readPackedRefs = .ok P) (hL : env.readRefDir "refs/tags" "" = .ok L) :
    (GetTags env s).1 = .ok (P ++ L) ∧
      ∀ r, (GetTags env s).1 = .ok r →
        r.length = P.length + L.length ∧ r.take P.length = P ∧ r.drop P.length = L := by
  have h : (GetTags env s).1 = .ok (P ++ L) := by
    simp [GetTags, hP, hL]
  refine ⟨h, ?_⟩
  intro r hr
  rw [h] at hr
  injection hr with hr
  subst hr
  simp

/-- Witness for C1: packed `[v1, v2]` and loose `[v2]` give `[v1, v2, v2]`. -/
theorem GetTags_packed_then_loose_witness :
    (GetTags envTags st0).1 = .ok (["v1", "v2"] ++ ["v2"]) ∧
      ∀ r, (GetTags envTags st0).1 = .ok r →
        r.length = 2 + 1 ∧ r.take 2 = ["v1", "v2"] ∧ r.drop 2 = ["v2"] :=
  GetTags_packed_then_loose envTags st0 ["v1", "v2"] ["v2"] rfl rfl

/-- C10 (as stated, refuted): with both readers failing, `GetTags` returns
the loose reader's error, not the packed reader's, and the packed reader is
not even invoked. -/
theorem GetTags_packed_error_first_counterexample :
    envBothFail.readPackedRefs = .error "packed refs unreadable" ∧
      (GetTags envBothFail st0).1 = .error "loose refs unreadable" ∧
      (GetTags envBothFail st0).1 ≠ .error "packed refs unreadable" ∧
      (GetTags envBothFail st0).2.trace = [Event.readRefDir "refs/tags" ""] := by
  refine ⟨rfl, rfl, ?_, rfl⟩
  simp [GetTags, envBothFail]

/-- C10 (amended): `GetTags` reads the loose list first and the packed list
second. If the loose reader fails, its error is returned and the packed
reader is not invoked; if the loose reader succeeds and the packed reader
fails, the packed reader's error is returned; `GetTags` fails exactly when
at least one of the two readers fails. -/
theorem GetTags_loose_error_first (env : Env) (s : State) :
    (∀ e, env.readRefDir "refs/tags" "" = .error e →
        GetTags env s = (.error e, s.log (Event.readRefDir "refs/tags" ""))) ∧
      (∀ L e, env.readRefDir "refs/tags" "" = .ok L → env.readPackedRefs = .error e →
        GetTags env s =
          (.error e, (s.log (Event.readRefDir "refs/tags" "")).log Event.readPackedRefs)) ∧
      ((∃ e, (GetTags env s).1 = .error e) ↔
        ((∃ e, env.readRefDir "refs/tags" "" = .error e) ∨
          (∃ e, env.readPackedRefs = .error e))) := by
  refine ⟨?_, ?_, ?_⟩
  · intro e h
    simp [GetTags, h]
  · intro L e hL hP
    simp [GetTags, hL, hP]
  · cases hL : env.readRefDir "refs/tags" "" <;> cases hP : env.readPackedRefs <;>
      simp [GetTags, hL, hP]

/-- Witness for C10 (amended), at the environment where both readers fail. -/
theorem GetTags_loose_error_first_witness :
    GetTags envBothFail st0 =
      (.error "loose refs unreadable", st0.log (Event.readRefDir "refs/tags" "")) :=
  (GetTags_loose_error_first envBothFail st0).1 "loose refs unreadable" rfl

/-! ## Decoding one identifier: `getTag` -/

/-- C2: for an Identifier `i` not in the tag cache whose object the accessor
returns with kind Commit, `getTag i` succeeds with a Tag that has `Id = i`,
`Object = i`, `Type = "commit"`, no tagger and an empty message, and
afterwards the cache maps `i` to that Tag. -/
theorem getTag_lightweight (env : Env) (s : State) (i : sha1) (raw : RawObject)
    (hmiss : cacheGet s.repo.tagCache i = none)
    (hraw : env.getRawObject i = .ok raw) (hkind : raw.tp = ObjectCommit) :
    ∃ p s', getTag env i s = (.ok p, s') ∧
      s'.deref p = some
        { Name := "", Id := i, repo := some s.repo.Path, Object := i, Type_ := "commit",
          Tagger := none, Message := "" } ∧
      cacheGet s'.repo.tagCache i = some p ∧
      s'.cached i = s'.deref p := by
  refine ⟨s.heap.length, s.initCache.afterStore i (lightweightTag s.initCache i) [],
    ?_, ?_, ?_, ?_⟩
  · rw [getTag_of_miss env i s hmiss, getTagMiss_commit env i _ raw hraw hkind]
    rfl
  · simp [State.deref, State.afterStore, State.initCache, lightweightTag, Tag.new]
  · simp [State.afterStore, cacheGet_cachePut_self, State.initCache]
  · simp [State.cached, State.afterStore, cacheGet_cachePut_self, State.initCache]

/-- Witness for C2: the first resolution of `0101..01` in a fresh repository
whose store holds a commit there. -/
theorem getTag_lightweight_witness :
    ∃ p s', getTag envCommit (idOf 1) st0 = (.ok p, s') ∧
      s'.deref p = some
        { Name := "", Id := idOf 1, repo := some st0.repo.Path, Object := idOf 1,
          Type_ := "commit", Tagger := none, Message := "" } ∧
      cacheGet s'.repo.tagCache (idOf 1) = some p ∧
      s'.cached (idOf 1) = s'.deref p :=
  getTag_lightweight envCommit st0 (idOf 1)
    { tp := ObjectCommit, size := 0, dataRc := { content := .ok [] } } rfl rfl rfl

/-- C4: for an Identifier `i` not in the tag cache whose object the accessor
returns with kind Tag, whose byte source reads fully as `data` and for which
`parseTagData data` yields `parsed`, `getTag i` succeeds with `parsed` in
which `Id` is `i` (and the unexported back pointer is the repository);
`Object`, `Type`, `Tagger`, `Message` and `Name` are those of `parsed`, and
afterwards the cache maps `i` to that Tag. -/
theorem getTag_annotated (env : Env) (s : State) (i : sha1) (raw : RawObject)
    (data : List Byte) (parsed : Tag)
    (hmiss : cacheGet s.repo.tagCache i = none)
    (hraw : env.getRawObject i = .ok raw) (hkind : raw.tp = ObjectTag)
    (hread : raw.dataRc.content = .ok data) (hparse : env.parseTagData data = .ok parsed) :
    ∃ p s' t, getTag env i s = (.ok p, s') ∧ s'.deref p = some t ∧
      t = { parsed with Id := i, repo := some s.repo.Path } ∧
      t.Id = i ∧ t.Object = parsed.Object ∧ t.Type_ = parsed.Type_ ∧
      t.Tagger = parsed.Tagger ∧ t.Message = parsed.Message ∧ t.Name = parsed.Name ∧
      cacheGet s'.repo.tagCache i = some p ∧ s'.cached i = some t := by
  refine ⟨s.heap.length,
    s.initCache.afterStore i (annotatedTag s.initCache i parsed)
      [Event.ReadAll s.initCache.opened, Event.parseTagData data],
    { parsed with Id := i, repo := some s.repo.Path }, ?_, ?_,
    rfl, rfl, rfl, rfl, rfl, rfl, rfl, ?_, ?_⟩
  · rw [getTag_of_miss env i s hmiss,
      getTagMiss_annotated env i _ raw data parsed hraw hkind hread hparse]
    rfl
  · simp [State.deref, State.afterStore, State.initCache, annotatedTag]
  · simp [State.afterStore, cacheGet_cachePut_self, State.initCache]
  · simp [State.cached, State.deref, State.afterStore, cacheGet_cachePut_self,
      State.initCache, annotatedTag]

/-- Witness for C4: the record stored at `0101..01` names the object
`0202..02`, so the resolved Tag has `Id = 0101..01` and `Object = 0202..02`. -/
theorem getTag_annotated_witness :
    ∃ p s' t, getTag envAnnotated (idOf 1) st0 = (.ok p, s') ∧ s'.deref p = some t ∧
      t = { parsedTag with Id := idOf 1, repo := some st0.repo.Path } ∧
      t.Id = idOf 1 ∧ t.Object = parsedTag.Object ∧ t.Type_ = parsedTag.Type_ ∧
      t.Tagger = parsedTag.Tagger ∧ t.Message = parsedTag.Message ∧
      t.Name = parsedTag.Name ∧
      cacheGet s'.repo.tagCache (idOf 1) = some p ∧ s'.cached (idOf 1) = some t :=
  getTag_annotated envAnnotated st0 (idOf 1)
    { tp := ObjectTag, size := 3, dataRc := { content := .ok [1, 2, 3] } } [1, 2, 3]
    parsedTag rfl rfl rfl rfl rfl

/-- C6: for an Identifier `i` not in the tag cache whose fetched object is a
Tree or a Blob, `getTag i` fails with an error (hence returns no Tag) and
the cache still has no entry for `i`; and whenever `getTag` fails, at the
fetch, the kind check, the read or the parse, the entries of the cache and
the heap of Tags are as before the call. -/
theorem getTag_failure_keeps_cache (env : Env) (s : State) (i : sha1) :
    (∀ raw, cacheGet s.repo.tagCache i = none → env.getRawObject i = .ok raw →
        (raw.tp = ObjectTree ∨ raw.tp = ObjectBlob) →
        (getTag env i s).1 = .error "Expected tag type, read error." ∧
          cacheGet (getTag env i s).2.repo.tagCache i = none) ∧
      (∀ e, (getTag env i s).1 = .error e →
        (getTag env i s).2.repo.tagCache.getD [] = s.repo.tagCache.getD [] ∧
          (∀ k, cacheGet (getTag env i s).2.repo.tagCache k = cacheGet s.repo.tagCache k) ∧
          (getTag env i s).2.heap = s.heap) := by
  constructor
  · intro raw hmiss hraw hkind
    have hc : raw.tp ≠ ObjectCommit := by rcases hkind with h | h <;> simp [h]
    have ht : raw.tp ≠ ObjectTag := by rcases hkind with h | h <;> simp [h]
    rw [getTag_of_miss env i s hmiss, getTagMiss_other_kind env i _ raw hraw hc ht]
    refine ⟨rfl, ?_⟩
    simpa [State.afterFail] using (cacheGet_initCache s i).trans hmiss
  · intro e he
    cases hget : cacheGet s.repo.tagCache i with
    | some p =>
      rw [getTag_of_hit env i s p hget] at he
      cases he
    | none =>
      rw [getTag_of_miss env i s hget] at he ⊢
      have hk : ∀ k, cacheGet s.initCache.repo.tagCache k = cacheGet s.repo.tagCache k :=
        cacheGet_initCache s
      rcases getTagMiss_cases env i s.initCache with ⟨e', h⟩ | ⟨e', mid, h⟩ | ⟨t, mid, h⟩
      · rw [h]
        exact ⟨by simp [State.log, State.initCache], by simpa [State.log] using hk,
          by simp [State.log, State.initCache]⟩
      · rw [h]
        exact ⟨by simp [State.afterFail, State.initCache],
          by simpa [State.afterFail] using hk, by simp [State.afterFail, State.initCache]⟩
      · rw [h] at he
        cases he

/-- Witness for C6: resolving `0101..01` in a fresh repository whose store
holds a blob there. -/
theorem getTag_failure_keeps_cache_witness :
    (getTag envBlob (idOf 1) st0).1 = .error "Expected tag type, read error." ∧
      cacheGet (getTag envBlob (idOf 1) st0).2.repo.tagCache (idOf 1) = none :=
  (getTag_failure_keeps_cache envBlob st0 (idOf 1)).1
    { tp := ObjectBlob, size := 1, dataRc := { content := .ok [7] } } rfl rfl (Or.inr rfl)

/-- C8: in a call `getTag i` that misses the cache and in which the accessor
hands back a byte source (handle `s.opened`), the events of the call are the
fetch, the hand-over, the events of the body, none of which acquires or
closes a byte source, and last the `Close` of that byte source: it is
closed exactly once, on every exit path. When the accessor fails, the only
event is the fetch, and on a cache hit there is no event: no byte source is
acquired or closed. -/
theorem getTag_closes_byte_source (env : Env) (s : State) (i : sha1) :
    (∀ raw, cacheGet s.repo.tagCache i = none → env.getRawObject i = .ok raw →
        ∃ mid, (getTag env i s).2.trace =
            s.trace ++ ([Event.getRawObject i, Event.acquire s.opened] ++ mid ++
              [Event.Close s.opened]) ∧
          (∀ h, Event.acquire h ∉ mid ∧ Event.Close h ∉ mid) ∧
          ((getTag env i s).2.trace.drop s.trace.length).count (Event.Close s.opened) = 1 ∧
          (getTag env i s).2.opened = s.opened + 1) ∧
      (∀ e, cacheGet s.repo.tagCache i = none → env.getRawObject i = .error e →
        (getTag env i s).2.trace = s.trace ++ [Event.getRawObject i] ∧
          (getTag env i s).2.opened = s.opened) ∧
      (∀ p, cacheGet s.repo.tagCache i = some p →
        (getTag env i s).2.trace = s.trace ∧ (getTag env i s).2.opened = s.opened) := by
  refine ⟨?_, ?_, ?_⟩
  · intro raw hmiss hraw
    rw [getTag_of_miss env i s hmiss]
    have key : ∀ (r : Except Error Ptr) (s' : State) (mid : List Event),
        getTagMiss env i s.initCache = (r, s') →
        s'.trace = s.trace ++ fetchEvents s i mid → s'.opened = s.opened + 1 →
        (mid = [] ∨ mid = [Event.ReadAll s.opened] ∨
          ∃ data, mid = [Event.ReadAll s.opened, Event.parseTagData data]) →
        ∃ mid, (getTagMiss env i s.initCache).2.trace =
            s.trace ++ ([Event.getRawObject i, Event.acquire s.opened] ++ mid ++
              [Event.Close s.opened]) ∧
          (∀ h, Event.acquire h ∉ mid ∧ Event.Close h ∉ mid) ∧
          ((getTagMiss env i s.initCache).2.trace.drop s.trace.length).count
            (Event.Close s.opened) = 1 ∧
          (getTagMiss env i s.initCache).2.opened = s.opened + 1 := by
      intro r s' mid h htr hop hmid
      refine ⟨mid, ?_, ?_, ?_, ?_⟩
      · rw [h]; exact htr
      · rcases hmid with rfl | rfl | ⟨data, rfl⟩ <;> simp
      · rw [h]
        simp only [htr, List.drop_left]
        rcases hmid with rfl | rfl | ⟨data, rfl⟩ <;> simp [fetchEvents, List.count_cons]
      · rw [h]; exact hop
    rcases getTagMiss_fetched_cases env i s.initCache raw hraw with
      ⟨e, mid, h, hmid⟩ | ⟨t, mid, h, hmid⟩
    · exact key _ _ mid h rfl rfl hmid
    · refine key _ _ mid h rfl rfl ?_
      rcases hmid with h1 | h1
      · exact Or.inl h1
      · exact Or.inr (Or.inr h1)
  · intro e hmiss hraw
    rw [getTag_of_miss env i s hmiss, getTagMiss_fetch_error env i _ e hraw]
    exact ⟨rfl, rfl⟩
  · intro p hhit
    rw [getTag_of_hit env i s p hhit]
    exact ⟨rfl, rfl⟩

/-- Witness for C8, on the parse-error exit: the tag record at `0101..01` is
rejected by the parser, and the byte source is closed after the parse. -/
theorem getTag_closes_byte_source_witness :
    ∃ mid, (getTag envBadRecord (idOf 1) st0).2.trace =
        st0.trace ++ ([Event.getRawObject (idOf 1), Event.acquire st0.opened] ++ mid ++
          [Event.Close st0.opened]) ∧
      (∀ h, Event.acquire h ∉ mid ∧ Event.Close h ∉ mid) ∧
      ((getTag envBadRecord (idOf 1) st0).2.trace.drop st0.trace.length).count
        (Event.Close st0.opened) = 1 ∧
      (getTag envBadRecord (idOf 1) st0).2.opened = st0.opened + 1 :=
  (getTag_closes_byte_source envBadRecord st0 (idOf 1)).1
    { tp := ObjectTag, size := 3, dataRc := { content := .ok [1, 2, 3] } } rfl rfl

/-! ## Resolving a name: `GetTag` -/

/-- C5: when the loose ref file of a name cannot be read, or its content is
rejected by `NewIdFromString`, `GetTag` fails with that error before any
store access: the only event of the call is the `ReadFile`, so the object
store accessor is not invoked, and the repository with its tag cache, the
heap and the byte sources are untouched. -/
theorem GetTag_ref_failure (env : Env) (s : State) (n : String) (e : Error)
    (h : env.ReadFile (TagPath env s.repo n) = .error e ∨
      ∃ d, env.ReadFile (TagPath env s.repo n) = .ok d ∧ env.NewIdFromString d = .error e) :
    (GetTag env n s).1 = .error e ∧
      (GetTag env n s).2.trace = s.trace ++ [Event.ReadFile (TagPath env s.repo n)] ∧
      (∀ i, Event.getRawObject i ∉ (GetTag env n s).2.trace.drop s.trace.length) ∧
      (GetTag env n s).2.repo = s.repo ∧
      (GetTag env n s).2.heap = s.heap ∧
      (GetTag env n s).2.opened = s.opened := by
  have key : GetTag env n s = (.error e, s.log (Event.ReadFile (TagPath env s.repo n))) := by
    rcases h with h | ⟨d, hd, hi⟩
    · simp [GetTag, h]
    · simp [GetTag, hd, hi]
  rw [key]
  refine ⟨rfl, rfl, ?_, rfl, rfl, rfl⟩
  intro i
  simp [State.log]

/-- Witness for C5: no ref file exists for `v9` in a fresh repository. -/
theorem GetTag_ref_failure_witness :
    (GetTag envNoRef "v9" st0).1 = .error "open refs/tags: no such file" ∧
      (GetTag envNoRef "v9" st0).2.trace =
        st0.trace ++ [Event.ReadFile (TagPath envNoRef st0.repo "v9")] ∧
      (∀ i, Event.getRawObject i ∉ (GetTag envNoRef "v9" st0).2.trace.drop st0.trace.length) ∧
      (GetTag envNoRef "v9" st0).2.repo = st0.repo ∧
      (GetTag envNoRef "v9" st0).2.heap = st0.heap ∧
      (GetTag envNoRef "v9" st0).2.opened = st0.opened :=
  GetTag_ref_failure envNoRef st0 "v9" "open refs/tags: no such file" (Or.inl rfl)

/-- C3: a cache hit returns the cached pointer and leaves the whole state,
trace included, as it was: neither `getRawObject` nor `parseTagData` is
invoked. Consequently a second `GetTag` of a name after a successful first
one, with the collaborators unchanged, returns the same Tag, field for
field, and its only event is the read of the ref file. -/
theorem getTag_hit_no_fetch (env : Env) :
    (∀ s i p, cacheGet s.repo.tagCache i = some p → getTag env i s = (.ok p, s)) ∧
      (∀ s n p s1, GetTag env n s = (.ok p, s1) →
        ∃ s2, GetTag env n s1 = (.ok p, s2) ∧ s2.deref p = s1.deref p ∧
          s2.heap = s1.heap ∧ s2.repo = s1.repo ∧ s2.opened = s1.opened ∧
          s2.trace = s1.trace ++ [Event.ReadFile (TagPath env s1.repo n)]) := by
  refine ⟨fun s i p h => getTag_of_hit env i s p h, ?_⟩
  intro s n p s1 h
  obtain ⟨d, i, s', hd, hi, hg, rfl⟩ := GetTag_ok_inv env n s s1 p h
  obtain ⟨hc, hpath, -⟩ := getTag_ok env i _ s' p hg
  have hpath' : TagPath env (s'.setName p n).repo n = TagPath env s.repo n := by
    simp only [TagPath, State.setName, hpath, State.log]
  have hhit : getTag env i ((s'.setName p n).log (Event.ReadFile (TagPath env s.repo n))) =
      (.ok p, (s'.setName p n).log (Event.ReadFile (TagPath env s.repo n))) :=
    getTag_of_hit env i _ p (by simpa [State.setName, State.log] using hc)
  have h2 := GetTag_of_ok env n (s'.setName p n) _ d i p (hpath'.symm ▸ hd) hi
    (hpath'.symm ▸ hhit)
  refine ⟨_, h2, ?_, ?_, ?_, ?_, ?_⟩
  · simp [State.deref, State.setName, State.log, List.modify_modify_eq]
    rfl
  · simp [State.setName, State.log, List.modify_modify_eq]
    rfl
  · rfl
  · rfl
  · simp [State.setName, State.log, hpath']

/-- Witness for C3: `v1` resolved twice in a repository whose store holds a
commit at the identifier in the ref file. -/
theorem getTag_hit_no_fetch_witness :
    ∃ s2, GetTag envCommit "v1" (GetTag envCommit "v1" st0).2 = (.ok 0, s2) ∧
      s2.deref 0 = (GetTag envCommit "v1" st0).2.deref 0 ∧
      s2.heap = (GetTag envCommit "v1" st0).2.heap ∧
      s2.repo = (GetTag envCommit "v1" st0).2.repo ∧
      s2.opened = (GetTag envCommit "v1" st0).2.opened ∧
      s2.trace = (GetTag envCommit "v1" st0).2.trace ++
        [Event.ReadFile (TagPath envCommit (GetTag envCommit "v1" st0).2.repo "v1")] :=
  (getTag_hit_no_fetch envCommit).2 st0 "v1" 0 (GetTag envCommit "v1" st0).2 rfl

/-- C7 (as stated, refuted): in a fresh repository whose ref files `v1` and
`v2` both hold `0101..01`, a commit, `getTag` stores a Tag with an empty
`Name`, yet after `GetTag "v1"` the cached Tag has `Name = "v1"`; and after
`GetTag "v2"` the Tag returned by the first call (address 0) has
`Name = "v2"`. -/
theorem GetTag_name_not_in_cache_counterexample :
    ((getTag envCommit (idOf 1)
        (st0.log (Event.ReadFile (TagPath envCommit st0.repo "v1")))).2.cached
          (idOf 1)).map Tag.Name = some "" ∧
      (GetTag envCommit "v1" st0).1 = .ok 0 ∧
      ((GetTag envCommit "v1" st0).2.cached (idOf 1)).map Tag.Name = some "v1" ∧
      (GetTag envCommit "v2" (GetTag envCommit "v1" st0).2).1 = .ok 0 ∧
      ((GetTag envCommit "v2" (GetTag envCommit "v1" st0).2).2.deref 0).map Tag.Name =
        some "v2" ∧
      ((GetTag envCommit "v2" (GetTag envCommit "v1" st0).2).2.deref 0).map Tag.Name ≠
        some "v1" := by
  refine ⟨rfl, rfl, rfl, rfl, rfl, ?_⟩
  decide

/-- C7 (amended): `GetTag` writes the requested name through the pointer it
shares with the tag cache. From a well-formed state, if `GetTag n` succeeds
for the Identifier `i` read from the ref file, and `t` is the Tag the cache
maps `i` to when `getTag i` returns, then after the call both the returned
pointer and the cache entry of `i` refer to `t` with `Name` set to `n` and
every other field unchanged; and a later successful `GetTag n2` for a name
whose ref file holds the same Identifier returns the same pointer, after
which that one Tag, the result of both calls, has `Name = n2`. -/
theorem GetTag_name_written_to_cache (env : Env) (s s1 : State) (n : String) (p : Ptr)
    (hwf : s.WF) (h : GetTag env n s = (.ok p, s1)) :
    ∃ d i s' t, env.ReadFile (TagPath env s.repo n) = .ok d ∧
      env.NewIdFromString d = .ok i ∧
      getTag env i (s.log (Event.ReadFile (TagPath env s.repo n))) = (.ok p, s') ∧
      s'.cached i = some t ∧
      s1.cached i = some { t with Name := n } ∧
      s1.deref p = some { t with Name := n } ∧
      (∀ n2 d2 p2 s2, env.ReadFile (TagPath env s.repo n2) = .ok d2 →
        env.NewIdFromString d2 = .ok i → GetTag env n2 s1 = (.ok p2, s2) →
        p2 = p ∧ s2.deref p = some { t with Name := n2 } ∧
          s2.cached i = some { t with Name := n2 }) := by
  obtain ⟨d, i, s', hd, hi, hg, rfl⟩ := GetTag_ok_inv env n s s1 p h
  obtain ⟨hc, hpath, hwf'⟩ := getTag_ok env i _ s' p hg
  obtain ⟨-, hlt⟩ := hwf' hwf
  have hderef : s'.deref p = some (s'.heap.get ⟨p, hlt⟩) := by
    simp [State.deref, List.getElem?_eq_getElem hlt]
  have hc1 : cacheGet (s'.setName p n).repo.tagCache i = some p := by
    simpa [State.setName] using hc
  have hd1 : (s'.setName p n).deref p = some { s'.heap.get ⟨p, hlt⟩ with Name := n } := by
    rw [deref_setName, hderef]
    rfl
  refine ⟨d, i, s', s'.heap.get ⟨p, hlt⟩, hd, hi, hg, ?_, ?_, hd1, ?_⟩
  · simp [State.cached, hc, hderef]
  · simp [State.cached, hc1, hd1]
  · intro n2 d2 p2 s2 hd2 hi2 h2
    have hpath' : TagPath env (s'.setName p n).repo n2 = TagPath env s.repo n2 := by
      simp only [TagPath, State.setName, hpath, State.log]
    have hhit : getTag env i
        ((s'.setName p n).log (Event.ReadFile (TagPath env s.repo n2))) =
        (.ok p, (s'.setName p n).log (Event.ReadFile (TagPath env s.repo n2))) :=
      getTag_of_hit env i _ p (by simpa [State.log] using hc1)
    have h3 := GetTag_of_ok env n2 (s'.setName p n) _ d2 i p (hpath'.symm ▸ hd2) hi2
      (hpath'.symm ▸ hhit)
    rw [hpath'] at h3
    rw [h3] at h2
    injection h2 with h2a h2b
    injection h2a with h2a
    subst h2a h2b
    have hd2 : (((s'.setName p n).log
        (Event.ReadFile (TagPath env s.repo n2))).setName p n2).deref p =
        some { s'.heap.get ⟨p, hlt⟩ with Name := n2 } := by
      rw [deref_setName]
      have : ((s'.setName p n).log (Event.ReadFile (TagPath env s.repo n2))).deref p =
          (s'.setName p n).deref p := rfl
      rw [this, hd1]
      rfl
    refine ⟨rfl, hd2, ?_⟩
    have hc2 : cacheGet (((s'.setName p n).log
        (Event.ReadFile (TagPath env s.repo n2))).setName p n2).repo.tagCache i = some p := by
      simpa [State.setName, State.log] using hc
    simp [State.cached, hc2, hd2]

/-- Witness for C7 (amended): `v1` resolved in a fresh repository whose store
holds a commit at `0101..01`. -/
theorem GetTag_name_written_to_cache_witness :
    ∃ d i s' t, envCommit.ReadFile (TagPath envCommit st0.repo "v1") = .ok d ∧
      envCommit.NewIdFromString d = .ok i ∧
      getTag envCommit i (st0.log (Event.ReadFile (TagPath envCommit st0.repo "v1"))) =
        (.ok 0, s') ∧
      s'.cached i = some t ∧
      (GetTag envCommit "v1" st0).2.cached i = some { t with Name := "v1" } ∧
      (GetTag envCommit "v1" st0).2.deref 0 = some { t with Name := "v1" } ∧
      (∀ n2 d2 p2 s2, envCommit.ReadFile (TagPath envCommit st0.repo n2) = .ok d2 →
        envCommit.NewIdFromString d2 = .ok i →
        GetTag envCommit n2 (GetTag envCommit "v1" st0).2 = (.ok p2, s2) →
        p2 = 0 ∧ s2.deref 0 = some { t with Name := n2 } ∧
          s2.cached i = some { t with Name := n2 }) :=
  GetTag_name_written_to_cache envCommit st0 (GetTag envCommit "v1" st0).2 "v1" 0
    (by decide) rfl

end Git
